import Mathlib

/-!
Shallow embedding of the layer-manipulation engine in
`src/graphics_frontend/src/components/CanvasWorkspace.jsx`.

JavaScript numbers are modelled as exact rationals (`ℚ`); `Math.round`
is Mathlib's `round` (`⌊q + 1/2⌋`, which agrees with JS half-up
rounding, including at negative halves), `Math.max`/`Math.min` are
`max`/`min`, and `Math.atan2` is `Complex.arg` on real inputs.
Layer geometry fields that the code stores back after arithmetic are
kept as `ℚ` because the drag clamp can store a fractional coordinate
when the container width is fractional.
-/

/-- The pending crop rectangle stored on a layer (`crop: {x,y,width,height}`). -/
structure CropRect where
  x : ℚ
  y : ℚ
  width : ℚ
  height : ℚ
deriving DecidableEq, Repr

/-- A crop box in `{x,y,w,h}` form, as used by the crop session and by
`applyCrop`'s `cropBox` argument. -/
structure CropBox where
  x : ℚ
  y : ℚ
  w : ℚ
  h : ℚ
deriving DecidableEq, Repr

/-- The layer model from the component header comment:
`{ id, src, x, y, width, height, rotation (deg), crop, isSelected, natural }`.
The bitmap reference `src` is opaque to the geometry engine and is not
carried here; rotation is the integer degree value the code stores
(`Math.round` output). -/
structure Layer where
  id : ℕ
  x : ℚ
  y : ℚ
  width : ℚ
  height : ℚ
  rotation : ℤ
  crop : Option CropRect
  naturalW : ℚ
  naturalH : ℚ
  isSelected : Bool
deriving DecidableEq, Repr

/-- The helper `computeFit(imgWidth, imgHeight, maxWidth, maxHeight)`:
returns `{100,100}` for non-positive image dimensions, else scales by
`min(maxWidth/imgWidth, maxHeight/imgHeight, 1)` and rounds. -/
def computeFit (imgWidth imgHeight maxWidth maxHeight : ℚ) : ℤ × ℤ :=
  if imgWidth ≤ 0 ∨ imgHeight ≤ 0 then (100, 100)
  else
    let scale := min (min (maxWidth / imgWidth) (maxHeight / imgHeight)) 1
    (round (imgWidth * scale), round (imgHeight * scale))

/-- The selection update performed on layer pointer-down
(`setLayers(prev.map(l => ({ ...l, isSelected: l.id === id })))`):
every layer's flag becomes the result of comparing its id with the
pressed id. -/
def selectOnPointerDown (layers : List Layer) (pressedId : ℕ) : List Layer :=
  layers.map fun l => { l with isSelected := l.id == pressedId }

/-- Drag session state (`{id, offsetX, offsetY}`). -/
structure DragState where
  id : ℕ
  offsetX : ℚ
  offsetY : ℚ
deriving DecidableEq, Repr

/-- The drag branch of `onContainerPointerMove` applied to one layer:
`maxX = max(rect.width - l.width, 0)`, `nx = round(pointerX - offsetX)`
then clamped `max(0, min(nx, maxX))`, and similarly for `y`; layers with
a different id are returned unchanged. -/
def dragMove (rectW rectH : ℚ) (d : DragState) (px py : ℚ) (l : Layer) : Layer :=
  if l.id ≠ d.id then l
  else
    let maxX := max (rectW - l.width) 0
    let maxY := max (rectH - l.height) 0
    let nx : ℚ := max 0 (min ((round (px - d.offsetX) : ℤ) : ℚ) maxX)
    let ny : ℚ := max 0 (min ((round (py - d.offsetY) : ℤ) : ℚ) maxY)
    { l with x := nx, y := ny }

/-- The source rectangle computed by `applyCrop`:
`scaleX = currentBitmapW / layer.width`, `scaleY = currentBitmapH / layer.height`,
`sx = max(0, round(cropBox.x * scaleX))`, `sy = max(0, round(cropBox.y * scaleY))`,
`sw = max(1, round(cropBox.w * scaleX))`, `sh = max(1, round(cropBox.h * scaleY))`. -/
def cropSourceRect (bmW bmH dispW dispH : ℚ) (box : CropBox) : ℤ × ℤ × ℤ × ℤ :=
  let scaleX := bmW / dispW
  let scaleY := bmH / dispH
  (max 0 (round (box.x * scaleX)), max 0 (round (box.y * scaleY)),
   max 1 (round (box.w * scaleX)), max 1 (round (box.h * scaleY)))

/-- Pixel size of the bitmap produced by the crop bake: the offscreen
canvas is created with `canvas.width = sw; canvas.height = sh` and
`drawImage(img, sx, sy, sw, sh, 0, 0, sw, sh)` copies the source region
at identical destination extent, so the output bitmap is exactly the
source extent. -/
def bakedBitmapDims (bmW bmH dispW dispH : ℚ) (box : CropBox) : ℤ × ℤ :=
  let r := cropSourceRect bmW bmH dispW dispH box
  (r.2.2.1, r.2.2.2)

/-- The layer update committed by `applyCrop`:
`{ ...l, src: newUrl, width: round(cropBox.w), height: round(cropBox.h), crop: null }`
with `x` and `y` untouched. -/
def applyCropLayer (l : Layer) (box : CropBox) : Layer :=
  { l with
    width := ((round box.w : ℤ) : ℚ)
    height := ((round box.h : ℤ) : ℚ)
    crop := none }

/-- The eight resize handles. -/
inductive Handle
  | n | s | e | w | nw | ne | sw | se
deriving DecidableEq, Repr

/-- The `start` snapshot captured by `startResize`:
layer `x/y/width/height`, the pointer position, and
`aspect = layer.width / layer.height`. -/
structure ResizeStart where
  x : ℚ
  y : ℚ
  width : ℚ
  height : ℚ
  mouseX : ℚ
  mouseY : ℚ
  aspect : ℚ
deriving DecidableEq, Repr

/-- The `applyAspect` closure in the resize branch: identity when not
constrained; otherwise, with `aspect = start.aspect || 1` (JS falsiness
of `0` modelled explicitly), if `|dx| > |dy|` then `h = w / aspect`,
else `w = h * aspect`. -/
def applyAspect (constrained : Bool) (aspect dx dy w h : ℚ) : ℚ × ℚ :=
  match constrained with
  | false => (w, h)
  | true =>
    let a := if aspect = 0 then 1 else aspect
    if |dy| < |dx| then (w, w / a) else (h * a, h)

/-- The per-handle `anchors` table of the resize branch, producing the
pre-clamp `(nx, ny, nw, nh)`. Each corner/edge rule computes its raw
dimensions from the delta, applies the aspect correction, then derives
the anchored position from the corrected dimensions, starting from
`(start.x, start.y, start.width, start.height)` as in the source. -/
def resizeCore (start : ResizeStart) (constrained : Bool) (h : Handle)
    (dx dy : ℚ) : ℚ × ℚ × ℚ × ℚ :=
  match h with
  | .n =>
    let nh := start.height - dy
    let (nw, nh) := applyAspect constrained start.aspect dx dy start.width nh
    (start.x, start.y + (start.height - nh), nw, nh)
  | .s =>
    let nh := start.height + dy
    let (nw, nh) := applyAspect constrained start.aspect dx dy start.width nh
    (start.x, start.y, nw, nh)
  | .w =>
    let nw := start.width - dx
    let (nw, nh) := applyAspect constrained start.aspect dx dy nw start.height
    (start.x + (start.width - nw), start.y, nw, nh)
  | .e =>
    let nw := start.width + dx
    let (nw, nh) := applyAspect constrained start.aspect dx dy nw start.height
    (start.x, start.y, nw, nh)
  | .nw =>
    let nw := start.width - dx
    let nh := start.height - dy
    let (nw, nh) := applyAspect constrained start.aspect dx dy nw nh
    (start.x + (start.width - nw), start.y + (start.height - nh), nw, nh)
  | .ne =>
    let nw := start.width + dx
    let nh := start.height - dy
    let (nw, nh) := applyAspect constrained start.aspect dx dy nw nh
    (start.x, start.y + (start.height - nh), nw, nh)
  | .sw =>
    let nw := start.width - dx
    let nh := start.height + dy
    let (nw, nh) := applyAspect constrained start.aspect dx dy nw nh
    (start.x + (start.width - nw), start.y, nw, nh)
  | .se =>
    let nw := start.width + dx
    let nh := start.height + dy
    let (nw, nh) := applyAspect constrained start.aspect dx dy nw nh
    (start.x, start.y, nw, nh)

/-- The resize branch after the anchor rule, before the final
`Math.round`: the minimum-size clamp `nw = max(10, nw)`,
`nh = max(10, nh)` is applied AFTER the anchor derivation, then the
bounds clamp `nx = max(0, min(nx, rect.width - nw))`,
`ny = max(0, min(ny, rect.height - nh))`. -/
def resizeMoveQ (start : ResizeStart) (constrained : Bool) (h : Handle)
    (rectW rectH px py : ℚ) : ℚ × ℚ × ℚ × ℚ :=
  let dx := px - start.mouseX
  let dy := py - start.mouseY
  let (nx, ny, nw, nh) := resizeCore start constrained h dx dy
  let nw := max 10 nw
  let nh := max 10 nh
  let nx := max 0 (min nx (rectW - nw))
  let ny := max 0 (min ny (rectH - nh))
  (nx, ny, nw, nh)

/-- One full resize pointer-move for the target layer: the clamped
geometry rounded to integers, as stored by
`{ ...l, x: round(nx), y: round(ny), width: round(nw), height: round(nh) }`. -/
def resizeMove (start : ResizeStart) (constrained : Bool) (h : Handle)
    (rectW rectH px py : ℚ) : ℤ × ℤ × ℤ × ℤ :=
  let r := resizeMoveQ start constrained h rectW rectH px py
  (round r.1, round r.2.1, round r.2.2.1, round r.2.2.2)

/-- JS `Math.atan2(y, x)`, modelled as the argument of the complex number
`x + y*I` (range `(-π, π]`, agreeing with `atan2` away from signed
zeros). -/
noncomputable def atan2 (y x : ℝ) : ℝ := Complex.arg ⟨x, y⟩

/-- The `start` snapshot captured by `startRotate`:
center `(cx, cy)`, `angle0` (the layer rotation in radians) and
`mouseAngle0` (the pointer angle around the center). -/
structure RotateStart where
  cx : ℚ
  cy : ℚ
  angle0 : ℝ
  mouseAngle0 : ℝ

/-- The snapshot built by `startRotate`: `cx = layer.x + layer.width/2`,
`cy = layer.y + layer.height/2`,
`mouseAngle0 = atan2(mouseY - cy, mouseX - cx)`,
`angle0 = rotation * (π / 180)`. -/
noncomputable def startRotate (l : Layer) (mouseX mouseY : ℚ) : RotateStart :=
  let cx := l.x + l.width / 2
  let cy := l.y + l.height / 2
  { cx := cx
    cy := cy
    angle0 := (l.rotation : ℝ) * (Real.pi / 180)
    mouseAngle0 := atan2 ((mouseY : ℝ) - (cy : ℝ)) ((mouseX : ℝ) - (cx : ℝ)) }

/-- The rotate branch of `onContainerPointerMove`, before rounding:
`angleNow = atan2(pointerY - cy, pointerX - cx)`,
`delta = angleNow - mouseAngle0`, result `angle0 + delta` in radians. -/
noncomputable def rotateMoveRad (st : RotateStart) (px py : ℚ) : ℝ :=
  let angleNow := atan2 ((py : ℝ) - (st.cy : ℝ)) ((px : ℝ) - (st.cx : ℝ))
  let delta := angleNow - st.mouseAngle0
  st.angle0 + delta

/-- The rotation value stored by the rotate branch:
`Math.round((newAngleRad * 180) / Math.PI)`. -/
noncomputable def rotateMoveDeg (st : RotateStart) (px py : ℚ) : ℤ :=
  round ((rotateMoveRad st px py * 180) / Real.pi)

/-- Modelled from the spec (§4.5 sentence quoted by the claim), for
comparison with the source-derived `rotateMoveDeg`:
`rotation' = round_to_degrees(angle0 + (atan2(pointerY - cy, pointerX - cx) - mouseAngle0))`. -/
noncomputable def specRotationFormula (st : RotateStart) (px py : ℚ) : ℤ :=
  round (((st.angle0 +
      (atan2 ((py : ℝ) - (st.cy : ℝ)) ((px : ℝ) - (st.cx : ℝ)) - st.mouseAngle0)) * 180) /
    Real.pi)

/-- The crop-session mode tag (`'adjust' | 'confirm'`). -/
inductive CropMode
  | adjust | confirm
deriving DecidableEq, Repr

/-- The `transformState` tagged union. -/
inductive TransformState
  | resize (id : ℕ) (handle : Handle) (start : ResizeStart) (constrained : Bool)
  | rotate (id : ℕ) (start : RotateStart)
  | crop (id : ℕ) (mode : CropMode) (box : CropBox) (drawStart : Option (ℚ × ℚ))

/-- The engine's mutable state: the layer list, the drag session
(`dragState`) and the transform session (`transformState`). -/
structure EngineState where
  layers : List Layer
  dragState : Option DragState
  transformState : Option TransformState

/-- The `keydown` Escape handler: `setTransformState(null)` and nothing
else. -/
def escapeKey (s : EngineState) : EngineState :=
  { s with transformState := none }

/-- The handler `onContainerPointerUp`: clears `dragState`; clears `transformState`
unless the active transform is a crop. -/
def containerPointerUp (s : EngineState) : EngineState :=
  { s with
    dragState := none
    transformState :=
      match s.transformState with
      | some (.crop i m b d) => some (.crop i m b d)
      | _ => none }

/-- The dispatcher `onContainerPointerMove`: dispatches on the transform session kind
(resize, rotate, crop-adjust with a draw start), falling through to the
drag branch otherwise; a crop session without a draw start returns with
no change, and without a drag session the default branch does nothing. -/
noncomputable def containerPointerMove (s : EngineState) (rectW rectH px py : ℚ) :
    EngineState :=
  match s.transformState with
  | some (.resize id handle start constrained) =>
    { s with
      layers := s.layers.map fun l =>
        if l.id ≠ id then l
        else
          let r := resizeMove start constrained handle rectW rectH px py
          { l with x := (r.1 : ℚ), y := (r.2.1 : ℚ),
                   width := (r.2.2.1 : ℚ), height := (r.2.2.2 : ℚ) } }
  | some (.rotate id start) =>
    { s with
      layers := s.layers.map fun l =>
        if l.id ≠ id then l
        else { l with rotation := rotateMoveDeg start px py } }
  | some (.crop id mode _box drawStart) =>
    if mode = CropMode.adjust then
      match drawStart with
      | none => s
      | some (mx, my) =>
        { s with
          transformState := some (.crop id mode
            ⟨min mx px, min my py, |px - mx|, |py - my|⟩ (some (mx, my))) }
    else
      match s.dragState with
      | none => s
      | some d => { s with layers := s.layers.map (dragMove rectW rectH d px py) }
  | none =>
    match s.dragState with
    | none => s
    | some d => { s with layers := s.layers.map (dragMove rectW rectH d px py) }

/-- Modelled from the spec's resize-anchor language: which edges of the
pre-clamp result `(nx, ny, nw, nh)` are anchored for each handle —
edges opposite the active handle keep their start coordinate, re-derived
from the (possibly aspect-corrected) dimensions. -/
def anchoredEdges (h : Handle) (start : ResizeStart) (r : ℚ × ℚ × ℚ × ℚ) : Prop :=
  match h with
  | .n  => r.1 = start.x ∧ r.2.1 + r.2.2.2 = start.y + start.height
  | .s  => r.1 = start.x ∧ r.2.1 = start.y
  | .w  => r.1 + r.2.2.1 = start.x + start.width ∧ r.2.1 = start.y
  | .e  => r.1 = start.x ∧ r.2.1 = start.y
  | .nw => r.1 + r.2.2.1 = start.x + start.width ∧ r.2.1 + r.2.2.2 = start.y + start.height
  | .ne => r.1 = start.x ∧ r.2.1 + r.2.2.2 = start.y + start.height
  | .sw => r.1 + r.2.2.1 = start.x + start.width ∧ r.2.1 = start.y
  | .se => r.1 = start.x ∧ r.2.1 = start.y

/-- Claim C1: on crop confirm the crop rectangle is mapped to
source-bitmap pixels via `scaleX = bitmapWidth/displayWidth` and
`scaleY = bitmapHeight/displayHeight` with rounding, the source origin
clamped to 0 or more and the extent to 1px or more, the new bitmap has
exactly the source pixel extent, and afterwards the layer's
width/height equal the rounded crop-box size, its crop field is null
and its position is unchanged; in particular box (10,10,50,50) on a
200x200 display of a 400x400 bitmap gives source rect (20,20,100,100)
and a 100x100 output bitmap. -/
theorem crop_bake_postconditions :
    (∀ (l : Layer) (box : CropBox) (bmW bmH : ℚ),
      (applyCropLayer l box).x = l.x ∧
      (applyCropLayer l box).y = l.y ∧
      (applyCropLayer l box).crop = none ∧
      (applyCropLayer l box).width = ((round box.w : ℤ) : ℚ) ∧
      (applyCropLayer l box).height = ((round box.h : ℤ) : ℚ) ∧
      (cropSourceRect bmW bmH l.width l.height box).1 =
        max 0 (round (box.x * (bmW / l.width))) ∧
      (cropSourceRect bmW bmH l.width l.height box).2.1 =
        max 0 (round (box.y * (bmH / l.height))) ∧
      (cropSourceRect bmW bmH l.width l.height box).2.2.1 =
        max 1 (round (box.w * (bmW / l.width))) ∧
      (cropSourceRect bmW bmH l.width l.height box).2.2.2 =
        max 1 (round (box.h * (bmH / l.height))) ∧
      0 ≤ (cropSourceRect bmW bmH l.width l.height box).1 ∧
      0 ≤ (cropSourceRect bmW bmH l.width l.height box).2.1 ∧
      1 ≤ (cropSourceRect bmW bmH l.width l.height box).2.2.1 ∧
      1 ≤ (cropSourceRect bmW bmH l.width l.height box).2.2.2 ∧
      bakedBitmapDims bmW bmH l.width l.height box =
        ((cropSourceRect bmW bmH l.width l.height box).2.2.1,
         (cropSourceRect bmW bmH l.width l.height box).2.2.2)) ∧
    cropSourceRect 400 400 200 200 ⟨10, 10, 50, 50⟩ = (20, 20, 100, 100) ∧
    bakedBitmapDims 400 400 200 200 ⟨10, 10, 50, 50⟩ = (100, 100) := by
  refine ⟨fun l box bmW bmH => ?_, ?_, ?_⟩
  · exact ⟨rfl, rfl, rfl, rfl, rfl, rfl, rfl, rfl, rfl, le_max_left _ _, le_max_left _ _,
      le_max_left _ _, le_max_left _ _, rfl⟩
  · simp only [cropSourceRect]
    norm_num [round_eq]
  · simp only [bakedBitmapDims, cropSourceRect]
    norm_num [round_eq]

/-- Claim C2: with aspect lock, after the unconstrained dimensions for
the active handle are computed, `|dx| > |dy|` derives
`height = width / startAspect` (keeping the unconstrained width) and
otherwise `width = height * startAspect` (keeping the unconstrained
height), identically for all eight handles, with anchored edges
re-derived from the corrected dimensions; the `se` drag by (+50,+50) on
(100,100,200,150) gives (100,100,250,200) unlocked and (100,100,267,200)
locked. -/
theorem resize_aspect_lock_rule :
    (∀ (start : ResizeStart) (h : Handle) (dx dy : ℚ),
      start.aspect ≠ 0 →
      ((if |dy| < |dx|
        then (resizeCore start true h dx dy).2.2.1 = (resizeCore start false h dx dy).2.2.1 ∧
             (resizeCore start true h dx dy).2.2.2 =
               (resizeCore start false h dx dy).2.2.1 / start.aspect
        else (resizeCore start true h dx dy).2.2.2 = (resizeCore start false h dx dy).2.2.2 ∧
             (resizeCore start true h dx dy).2.2.1 =
               (resizeCore start false h dx dy).2.2.2 * start.aspect) ∧
       anchoredEdges h start (resizeCore start true h dx dy))) ∧
    resizeMove ⟨100, 100, 200, 150, 0, 0, 200 / 150⟩ false Handle.se 800 600 50 50 =
      (100, 100, 250, 200) ∧
    resizeMove ⟨100, 100, 200, 150, 0, 0, 200 / 150⟩ true Handle.se 800 600 50 50 =
      (100, 100, 267, 200) := by
  refine ⟨fun start h dx dy ha => ?_, ?_, ?_⟩
  · cases h <;>
      · simp only [resizeCore, applyAspect, anchoredEdges, if_neg ha]
        split <;> constructor <;> try constructor
        all_goals try rfl
        all_goals ring_nf
  · simp only [resizeMove, resizeMoveQ, resizeCore, applyAspect]
    norm_num [round_eq]
  · simp only [resizeMove, resizeMoveQ, resizeCore, applyAspect]
    norm_num [round_eq]

/-- Witness for C2: the aspect-lock rule applied at the concrete locked
`se` scenario, discharging the `startAspect` nonzero hypothesis. -/
theorem resize_aspect_lock_rule_witness :
    (200 / 150 : ℚ) ≠ 0 ∧
    anchoredEdges Handle.se ⟨100, 100, 200, 150, 0, 0, 200 / 150⟩
      (resizeCore ⟨100, 100, 200, 150, 0, 0, 200 / 150⟩ true Handle.se 50 50) :=
  ⟨by norm_num,
   (resize_aspect_lock_rule.1 ⟨100, 100, 200, 150, 0, 0, 200 / 150⟩ Handle.se 50 50
      (by norm_num)).2⟩

/-- Counterexample to claim C3: the 10px floor is applied AFTER the
anchored-position derivation, so for handle `w` dragged 250px right on
a layer at (100,100,200,150) the result is (350,100,10,150): the right
edge lands at 360, not at `start.x + start.width = 300` as the claim
demands. -/
theorem resize_floor_after_anchor_cex :
    resizeMove ⟨100, 100, 200, 150, 0, 0, 200 / 150⟩ false Handle.w 800 600 250 0 =
      (350, 100, 10, 150) ∧
    (350 : ℤ) + 10 ≠ 100 + 200 := by
  constructor
  · simp only [resizeMove, resizeMoveQ, resizeCore, applyAspect]
    norm_num [round_eq]
  · norm_num

/-- Amended claim C3: the 10px minimum-size clamp runs after the
anchored-position derivation; the anchored opposite edge stays fixed
(handle `w`: `x + width = start.x + start.width`; handle `n`:
`y + height = start.y + start.height`, on the pre-rounding values)
whenever neither the 10px floor nor the bounds clamp binds. -/
theorem resize_anchor_when_clamps_slack (start : ResizeStart) (rectW rectH px py : ℚ)
    (hw10 : 10 ≤ start.width - (px - start.mouseX))
    (hh10 : 10 ≤ start.height - (py - start.mouseY))
    (hx0 : 0 ≤ start.x + (px - start.mouseX))
    (hx1 : start.x + (px - start.mouseX) ≤ rectW - (start.width - (px - start.mouseX)))
    (hy0 : 0 ≤ start.y + (py - start.mouseY))
    (hy1 : start.y + (py - start.mouseY) ≤ rectH - (start.height - (py - start.mouseY))) :
    (resizeMoveQ start false Handle.w rectW rectH px py).1 +
      (resizeMoveQ start false Handle.w rectW rectH px py).2.2.1 =
      start.x + start.width ∧
    (resizeMoveQ start false Handle.n rectW rectH px py).2.1 +
      (resizeMoveQ start false Handle.n rectW rectH px py).2.2.2 =
      start.y + start.height := by
  simp only [resizeMoveQ, resizeCore, applyAspect]
  constructor
  · have hfl : max 10 (start.width - (px - start.mouseX)) = start.width - (px - start.mouseX) :=
      max_eq_right hw10
    rw [hfl]
    have hx : start.x + (start.width - (start.width - (px - start.mouseX))) =
        start.x + (px - start.mouseX) := by ring
    rw [hx]
    have hmin : min (start.x + (px - start.mouseX))
        (rectW - (start.width - (px - start.mouseX))) = start.x + (px - start.mouseX) :=
      min_eq_left hx1
    rw [hmin, max_eq_right hx0]
    ring
  · have hfl : max 10 (start.height - (py - start.mouseY)) = start.height - (py - start.mouseY) :=
      max_eq_right hh10
    rw [hfl]
    have hy : start.y + (start.height - (start.height - (py - start.mouseY))) =
        start.y + (py - start.mouseY) := by ring
    rw [hy]
    have hmin : min (start.y + (py - start.mouseY))
        (rectH - (start.height - (py - start.mouseY))) = start.y + (py - start.mouseY) :=
      min_eq_left hy1
    rw [hmin, max_eq_right hy0]
    ring

/-- Witness for the amended C3: a concrete handle-`w` move where the
floor and bounds clamps are slack, keeping the right edge at 300. -/
theorem resize_anchor_when_clamps_slack_witness :
    (resizeMoveQ ⟨100, 100, 200, 150, 0, 0, 200 / 150⟩ false Handle.w 800 600 50 40).1 +
      (resizeMoveQ ⟨100, 100, 200, 150, 0, 0, 200 / 150⟩ false Handle.w 800 600 50 40).2.2.1 =
      100 + 200 := by
  exact (resize_anchor_when_clamps_slack ⟨100, 100, 200, 150, 0, 0, 200 / 150⟩ 800 600 50 40
    (by norm_num) (by norm_num) (by norm_num) (by norm_num) (by norm_num) (by norm_num)).1

/-- Claim C4: every drag move lands in `[0, canvasWidth - width]`
horizontally and `[0, canvasHeight - height]` vertically, collapsing to
exactly 0 when the layer exceeds the canvas in that axis. -/
theorem drag_bounds_invariant (rectW rectH : ℚ) (d : DragState) (px py : ℚ) (l : Layer)
    (hid : l.id = d.id) :
    (0 ≤ (dragMove rectW rectH d px py l).x ∧
     (l.width ≤ rectW → (dragMove rectW rectH d px py l).x ≤ rectW - l.width) ∧
     (rectW < l.width → (dragMove rectW rectH d px py l).x = 0)) ∧
    (0 ≤ (dragMove rectW rectH d px py l).y ∧
     (l.height ≤ rectH → (dragMove rectW rectH d px py l).y ≤ rectH - l.height) ∧
     (rectH < l.height → (dragMove rectW rectH d px py l).y = 0)) := by
  simp only [dragMove, hid, ne_eq, not_true_eq_false, if_false]
  refine ⟨⟨le_max_left _ _, fun hle => ?_, fun hlt => ?_⟩,
          ⟨le_max_left _ _, fun hle => ?_, fun hlt => ?_⟩⟩
  · have h0 : (0:ℚ) ≤ rectW - l.width := by linarith
    calc max 0 (min (((round (px - d.offsetX) : ℤ) : ℚ)) (max (rectW - l.width) 0))
        ≤ max (rectW - l.width) 0 := max_le (le_max_right _ _) (min_le_right _ _)
      _ = rectW - l.width := max_eq_left h0
  · have h0 : max (rectW - l.width) 0 = 0 := max_eq_right (by linarith)
    rw [h0]
    exact le_antisymm (max_le le_rfl (min_le_right _ _)) (le_max_left _ _)
  · have h0 : (0:ℚ) ≤ rectH - l.height := by linarith
    calc max 0 (min (((round (py - d.offsetY) : ℤ) : ℚ)) (max (rectH - l.height) 0))
        ≤ max (rectH - l.height) 0 := max_le (le_max_right _ _) (min_le_right _ _)
      _ = rectH - l.height := max_eq_left h0
  · have h0 : max (rectH - l.height) 0 = 0 := max_eq_right (by linarith)
    rw [h0]
    exact le_antisymm (max_le le_rfl (min_le_right _ _)) (le_max_left _ _)

/-- Witness for C4: an 820px-wide layer dragged on an 800px-wide canvas
always ends at `x = 0`. -/
theorem drag_bounds_invariant_witness :
    ((⟨1, 0, 0, 820, 100, 0, none, 820, 100, true⟩ : Layer).id = (⟨1, 0, 0⟩ : DragState).id) ∧
    (dragMove 800 600 ⟨1, 0, 0⟩ 500 300 ⟨1, 0, 0, 820, 100, 0, none, 820, 100, true⟩).x = 0 :=
  ⟨rfl,
   (drag_bounds_invariant 800 600 ⟨1, 0, 0⟩ 500 300
      ⟨1, 0, 0, 820, 100, 0, none, 820, 100, true⟩ rfl).1.2.2 (by norm_num)⟩

/-- Claim C5: every rotate move stores
`round_to_degrees(angle0 + (atan2(pointerY - cy, pointerX - cx) - mouseAngle0))`
with the session-start snapshot fixed, and the result is neither
normalized nor clamped, so rotation values can exceed 360 degrees. -/
theorem rotate_move_formula :
    (∀ (st : RotateStart) (px py : ℚ), rotateMoveDeg st px py = specRotationFormula st px py) ∧
    (∃ (st : RotateStart) (px py : ℚ), 360 < rotateMoveDeg st px py) := by
  constructor
  · intro st px py
    rfl
  · refine ⟨⟨0, 0, 4 * Real.pi, 0⟩, 1, 0, ?_⟩
    have hpi : Real.pi ≠ 0 := Real.pi_ne_zero
    have h1 : ((⟨((1 : ℚ) : ℝ) - ((0 : ℚ) : ℝ), ((0 : ℚ) : ℝ) - ((0 : ℚ) : ℝ)⟩ : ℂ)) = 1 := by
      simp [Complex.ext_iff]
    have harg : atan2 (((0 : ℚ) : ℝ) - ((0 : ℚ) : ℝ)) (((1 : ℚ) : ℝ) - ((0 : ℚ) : ℝ)) = 0 := by
      rw [atan2, h1, Complex.arg_one]
    have hval : rotateMoveRad ⟨0, 0, 4 * Real.pi, 0⟩ 1 0 = 4 * Real.pi := by
      simp only [rotateMoveRad]
      rw [harg]
      ring
    simp only [rotateMoveDeg, hval]
    have h720 : 4 * Real.pi * 180 / Real.pi = 720 := by field_simp; ring
    rw [h720]
    have hr : round ((720 : ℝ)) = 720 := by norm_num [round_eq]
    rw [hr]
    norm_num

/-- Helper: re-baking an extent already measured in bitmap pixels at a
nonzero display size reproduces that extent. -/
theorem bake_extent_unit (a : ℚ) (r : ℤ) (ha : a ≠ 0) :
    max 1 (round (a * (((max 1 r : ℤ) : ℚ) / a))) = max 1 r := by
  have hm : a * (((max 1 r : ℤ) : ℚ) / a) = ((max 1 r : ℤ) : ℚ) := by
    rw [mul_comm]
    exact div_mul_cancel₀ _ ha
  rw [hm, round_intCast, max_eq_right (le_max_left 1 r)]

/-- Claim C6: cropping to a rectangle and then cropping the result to
its own full bounds yields a bitmap of the same pixel extent as the
first crop. -/
theorem crop_idempotent_extent (bmW bmH : ℚ) (l : Layer) (box : CropBox)
    (hw : (round box.w : ℤ) ≠ 0) (hh : (round box.h : ℤ) ≠ 0) :
    bakedBitmapDims ((bakedBitmapDims bmW bmH l.width l.height box).1 : ℚ)
        ((bakedBitmapDims bmW bmH l.width l.height box).2 : ℚ)
        (applyCropLayer l box).width (applyCropLayer l box).height
        ⟨0, 0, (applyCropLayer l box).width, (applyCropLayer l box).height⟩ =
      bakedBitmapDims bmW bmH l.width l.height box := by
  have hwq : ((round box.w : ℤ) : ℚ) ≠ 0 := Int.cast_ne_zero.mpr hw
  have hhq : ((round box.h : ℤ) : ℚ) ≠ 0 := Int.cast_ne_zero.mpr hh
  simp only [bakedBitmapDims, cropSourceRect, applyCropLayer]
  exact Prod.ext (bake_extent_unit _ _ hwq) (bake_extent_unit _ _ hhq)

/-- Witness for C6: the double crop on the concrete 400x400 bitmap,
200x200 display, box (10,10,50,50) scenario. -/
theorem crop_idempotent_extent_witness :
    bakedBitmapDims
        ((bakedBitmapDims 400 400 200 200 ⟨10, 10, 50, 50⟩).1 : ℚ)
        ((bakedBitmapDims 400 400 200 200 ⟨10, 10, 50, 50⟩).2 : ℚ)
        (applyCropLayer ⟨1, 30, 40, 200, 200, 0, none, 400, 400, true⟩ ⟨10, 10, 50, 50⟩).width
        (applyCropLayer ⟨1, 30, 40, 200, 200, 0, none, 400, 400, true⟩ ⟨10, 10, 50, 50⟩).height
        ⟨0, 0,
          (applyCropLayer ⟨1, 30, 40, 200, 200, 0, none, 400, 400, true⟩ ⟨10, 10, 50, 50⟩).width,
          (applyCropLayer ⟨1, 30, 40, 200, 200, 0, none, 400, 400, true⟩ ⟨10, 10, 50, 50⟩).height⟩ =
      bakedBitmapDims 400 400 200 200 ⟨10, 10, 50, 50⟩ := by
  exact crop_idempotent_extent 400 400 ⟨1, 30, 40, 200, 200, 0, none, 400, 400, true⟩
    ⟨10, 10, 50, 50⟩ (by norm_num [round_eq]) (by norm_num [round_eq])

/-- Counterexample to claim C7: a 1x1 image uploaded with the minimum
viewport budget (100x100) is created at size 1x1, below the claimed
10px floor. -/
theorem size_floor_creation_cex :
    computeFit 1 1 100 100 = (1, 1) ∧ (1 : ℤ) < 10 := by
  constructor
  · simp only [computeFit]
    norm_num [round_eq]
  · norm_num

/-- Amended claim C7: only the resize engine enforces the 10px floor —
after every resize move both stored dimensions are at least 10; layer
creation (`computeFit`) and the crop bake do not enforce it and can
produce smaller sizes. -/
theorem resize_enforces_size_floor (start : ResizeStart) (constrained : Bool) (h : Handle)
    (rectW rectH px py : ℚ) :
    10 ≤ (resizeMove start constrained h rectW rectH px py).2.2.1 ∧
    10 ≤ (resizeMove start constrained h rectW rectH px py).2.2.2 := by
  simp only [resizeMove, resizeMoveQ]
  constructor
  · rw [round_eq]
    refine Int.le_floor.mpr ?_
    push_cast
    have := le_max_left (10 : ℚ)
      (resizeCore start constrained h (px - start.mouseX) (py - start.mouseY)).2.2.1
    linarith
  · rw [round_eq]
    refine Int.le_floor.mpr ?_
    push_cast
    have := le_max_left (10 : ℚ)
      (resizeCore start constrained h (px - start.mouseX) (py - start.mouseY)).2.2.2
    linarith

/-- Counterexample to claim C8: pressing an absent id is not a no-op —
a selected layer loses its `isSelected` flag. -/
theorem select_absent_id_cex :
    ([⟨1, 0, 0, 10, 10, 0, none, 10, 10, true⟩] : List Layer).map (fun l => l.isSelected) =
      [true] ∧
    (selectOnPointerDown [⟨1, 0, 0, 10, 10, 0, none, 10, 10, true⟩] 2).map
      (fun l => l.isSelected) = [false] := by
  constructor <;> decide

/-- Amended claim C8: selecting an absent id clears `isSelected` on
every layer; it is a no-op exactly when no layer was selected. -/
theorem select_absent_clears_selection (layers : List Layer) (pressedId : ℕ)
    (habs : ∀ l ∈ layers, l.id ≠ pressedId) :
    (∀ l ∈ selectOnPointerDown layers pressedId, l.isSelected = false) ∧
    ((∀ l ∈ layers, l.isSelected = false) → selectOnPointerDown layers pressedId = layers) := by
  constructor
  · intro l hl
    simp only [selectOnPointerDown, List.mem_map] at hl
    obtain ⟨a, ha, rfl⟩ := hl
    simp only [beq_eq_false_iff_ne, ne_eq]
    exact habs a ha
  · intro hall
    simp only [selectOnPointerDown]
    have : layers.map (fun l => { l with isSelected := l.id == pressedId }) =
        layers.map id := by
      refine List.map_congr_left ?_
      intro l hl
      have h1 : (l.id == pressedId) = false := beq_eq_false_iff_ne.mpr (habs l hl)
      have h2 := hall l hl
      cases l
      simp_all
    rw [this, List.map_id]

/-- Witness for the amended C8: a store with one unselected layer and an
absent id stays fully unselected and unchanged. -/
theorem select_absent_clears_selection_witness :
    (∀ l ∈ selectOnPointerDown [(⟨1, 0, 0, 10, 10, 0, none, 10, 10, false⟩ : Layer)] 2,
      l.isSelected = false) ∧
    selectOnPointerDown [(⟨1, 0, 0, 10, 10, 0, none, 10, 10, false⟩ : Layer)] 2 =
      [⟨1, 0, 0, 10, 10, 0, none, 10, 10, false⟩] := by
  have h := select_absent_clears_selection [(⟨1, 0, 0, 10, 10, 0, none, 10, 10, false⟩ : Layer)]
    2 (by decide)
  exact ⟨h.1, h.2 (by decide)⟩

/-- Counterexample to claim C9: with an active drag session, Escape
does not end the session — the drag state survives and the next
pointer-move still moves the layer (from (0,0) to (50,60)), so the
controller is not returned to an idle state for drags. -/
theorem escape_leaves_drag_active_cex :
    (containerPointerMove
        (escapeKey ⟨[⟨1, 0, 0, 100, 100, 0, none, 100, 100, true⟩], some ⟨1, 0, 0⟩, none⟩)
        800 600 50 60).layers.map (fun l => (l.x, l.y)) = [(50, 60)] ∧
    (([⟨1, 0, 0, 100, 100, 0, none, 100, 100, true⟩] : List Layer).map fun l => (l.x, l.y)) =
      [(0, 0)] := by
  constructor
  · simp only [containerPointerMove, escapeKey, dragMove, List.map_cons, List.map_nil]
    norm_num [round_eq]
  · decide

/-- Amended claim C9: Escape aborts the resize/rotate/crop transform
session (clearing it without reverting layer geometry; crop drawing,
non-destructive until confirmed, is discarded), but it does not end an
active drag session — drag state survives Escape, and only pointer-up
clears it; when no drag is active the escaped engine ignores pointer
moves. -/
theorem escape_clears_transform_only (s : EngineState) :
    (escapeKey s).transformState = none ∧
    (escapeKey s).layers = s.layers ∧
    (escapeKey s).dragState = s.dragState ∧
    (s.dragState = none →
      ∀ rectW rectH px py, containerPointerMove (escapeKey s) rectW rectH px py = escapeKey s) ∧
    (containerPointerUp s).dragState = none := by
  refine ⟨rfl, rfl, rfl, fun hd rectW rectH px py => ?_, rfl⟩
  simp only [containerPointerMove, escapeKey, hd]

/-- Witness for the amended C9: on a concrete dragless state, Escape
leaves no transform session and pointer-moves change nothing. -/
theorem escape_clears_transform_only_witness :
    (escapeKey ⟨[], none, none⟩).transformState = none ∧
    containerPointerMove (escapeKey ⟨[], none, none⟩) 800 600 5 5 =
      escapeKey ⟨[], none, none⟩ := by
  have h := escape_clears_transform_only ⟨[], none, none⟩
  exact ⟨h.1, h.2.2.2.1 rfl 800 600 5 5⟩

/-- Helper: `Math.atan2` results lie in `(-π, π]`. -/
theorem atan2_mem_Ioc (y x : ℝ) : atan2 y x ∈ Set.Ioc (-Real.pi) Real.pi :=
  Complex.arg_mem_Ioc _

/-- Helper: with both angle snapshots in `(-π, π]`, the per-move degree
change stays strictly below 360 in absolute value. -/
theorem rotate_delta_bound (r A M : ℝ) (hA : A ∈ Set.Ioc (-Real.pi) Real.pi)
    (hM : M ∈ Set.Ioc (-Real.pi) Real.pi) :
    |(r * (Real.pi / 180) + (A - M)) * 180 / Real.pi - r| < 360 := by
  have hpi : (0 : ℝ) < Real.pi := Real.pi_pos
  have key : (r * (Real.pi / 180) + (A - M)) * 180 / Real.pi - r = (A - M) * (180 / Real.pi) := by
    field_simp
    ring
  rw [key, abs_mul, abs_of_pos (by positivity : (0 : ℝ) < 180 / Real.pi)]
  obtain ⟨hA1, hA2⟩ := hA
  obtain ⟨hM1, hM2⟩ := hM
  have habs : |A - M| < 2 * Real.pi := by
    rw [abs_sub_lt_iff]
    constructor <;> linarith
  calc |A - M| * (180 / Real.pi) < 2 * Real.pi * (180 / Real.pi) :=
        mul_lt_mul_of_pos_right habs (by positivity)
    _ = 360 := by field_simp; ring

/-- Claim C10: within a single rotate session started by `startRotate`,
one pointer-move changes the rotation (in degrees, before rounding) by
strictly less than 360 in absolute value, because both `angleNow` and
`mouseAngle0` come from `atan2` with range `(-π, π]`. -/
theorem rotate_single_move_bounded (l : Layer) (mx my px py : ℚ) :
    |rotateMoveRad (startRotate l mx my) px py * 180 / Real.pi - ((l.rotation : ℤ) : ℝ)| <
      360 := by
  exact rotate_delta_bound ((l.rotation : ℤ) : ℝ)
    (atan2 ((py : ℝ) - ((l.y + l.height / 2 : ℚ) : ℝ)) ((px : ℝ) - ((l.x + l.width / 2 : ℚ) : ℝ)))
    (atan2 ((my : ℝ) - ((l.y + l.height / 2 : ℚ) : ℝ)) ((mx : ℝ) - ((l.x + l.width / 2 : ℚ) : ℝ)))
    (atan2_mem_Ioc _ _) (atan2_mem_Ioc _ _)
